import Mathlib

/-!
Verification of the conversation-history store and context-assembly
pipeline of a chat-webhook Lambda handler, shallowly embedded from
`lambda_function_dynamo.py` and `lambda_function.py`.

The DynamoDB table is modelled as a list of items; `put_item` replaces
any item with the same (pk, sk) key and otherwise inserts; a query
returns the pk-partition sorted ascending by sort key (ScanIndexForward).
Pagination is modelled by quantifying over all partitionings of the
query result into pages, the continuation cursor being the remaining
pages.
-/

namespace LambdaLine

/-- A persisted DynamoDB item: partition key, sort key (ms timestamp),
role and text attributes (optional, as `dict.get` tolerates absence),
and the TTL attribute (unix seconds). -/
structure Item where
  pk : String
  sk : Nat
  role : Option String
  text : Option String
  ttl : Nat
  deriving DecidableEq, Repr

/-- A turn as returned by `_load_all_history`: a dict with "role" and
"text" keys. -/
structure Turn where
  role : String
  text : String
  deriving DecidableEq, Repr

/-- One element of the "content" list of an Anthropic message. -/
structure ContentItem where
  type : String
  text : String
  deriving DecidableEq, Repr

/-- A model-facing message: role plus content list. -/
structure Msg where
  role : String
  content : List ContentItem
  deriving DecidableEq, Repr

/-- `i.get("role", "user")` / `i.get("text", "")` mapping of
`_load_all_history` line 157: item to returned turn dict. -/
def turnOfItem (i : Item) : Turn :=
  { role := i.role.getD "user", text := i.text.getD "" }

/-- The sort-key order used by the table (query ascending by sk). -/
def skLE (a b : Item) : Prop := a.sk ≤ b.sk

instance : DecidableRel skLE := fun a b => Nat.decLe a.sk b.sk

/-- A DynamoDB query for a partition key:
all items with that pk, ascending by sort key. -/
def queryItems (table : List Item) (pk : String) : List Item :=
  List.insertionSort skLE (table.filter (fun i => i.pk == pk))

/-- The `while True` pagination loop of `_load_all_history`
(lines 140-154): each iteration queries one batch; a continuation
cursor (LastEvaluatedKey) is present exactly while pages remain, and
the loop concatenates the batches. The store's successive responses
are the entries of `pages`. -/
def query_loop : List (List Item) → List Item
  | [] => []
  | [b] => b
  | b :: b2 :: rest => b ++ query_loop (b2 :: rest)

/-- `_load_all_history` against a store that returns the page sequence
`pages`: run the pagination loop, then map items to turn dicts
(line 157). -/
def load_all_history_paged (pages : List (List Item)) : List Turn :=
  (query_loop pages).map turnOfItem

/-- `_load_all_history` against a store that returns the whole
partition in a single unpaged query response. -/
def load_all_history_unpaged (dataset : List Item) : List Turn :=
  dataset.map turnOfItem

theorem query_loop_eq_join (pages : List (List Item)) :
    query_loop pages = pages.flatten := by
  induction pages with
  | nil => rfl
  | cons b rest ih =>
    cases rest with
    | nil => simp [query_loop]
    | cons b2 rest2 => simp [query_loop, List.flatten] at ih ⊢; exact ih

/-- C1: for every partitioning of a key's stored items into pages (each
page returned with a continuation cursor except the last), the
pagination loop of `_load_all_history` returns the concatenation of all
pages in order, identical to what an unpaged single-query read over the
same dataset would produce. -/
theorem load_all_pagination_transparent (table : List Item) (pk : String)
    (pages : List (List Item))
    (hjoin : pages.flatten = queryItems table pk) :
    load_all_history_paged pages
      = load_all_history_unpaged (queryItems table pk) := by
  unfold load_all_history_paged load_all_history_unpaged
  rw [query_loop_eq_join, hjoin]

theorem load_all_pagination_transparent_witness :
    ([[⟨"U1", 1, some "user", some "hi", 9⟩],
      [⟨"U1", 2, some "assistant", some "hello", 9⟩]] :
        List (List Item)).flatten
        = queryItems [⟨"U1", 1, some "user", some "hi", 9⟩,
            ⟨"U1", 2, some "assistant", some "hello", 9⟩] "U1"
    ∧ load_all_history_paged
        [[⟨"U1", 1, some "user", some "hi", 9⟩],
         [⟨"U1", 2, some "assistant", some "hello", 9⟩]]
      = load_all_history_unpaged
          (queryItems [⟨"U1", 1, some "user", some "hi", 9⟩,
            ⟨"U1", 2, some "assistant", some "hello", 9⟩] "U1") :=
  ⟨by decide, load_all_pagination_transparent _ "U1" _ (by decide)⟩

/-- DynamoDB `put_item`: replaces any existing item with the same
(partition key, sort key) pair, otherwise adds a new item. -/
def putItem (table : List Item) (it : Item) : List Item :=
  table.filter (fun j => !(j.pk == it.pk && j.sk == it.sk)) ++ [it]

/-- The item written by `_save_message` (lines 120-130):
pk, sk = now_ms, role, text, TTL attribute. -/
def mkItem (pk : String) (now_ms : Nat) (role text : String) (ttl : Nat) :
    Item :=
  { pk := pk, sk := now_ms, role := some role, text := some text, ttl := ttl }

/-- `_save_message(pk, role, text)` at clock reading `now_ms` with TTL
value `ttl`. -/
def save_message (table : List Item) (pk : String) (role text : String)
    (now_ms ttl : Nat) : List Item :=
  putItem table (mkItem pk now_ms role text ttl)

/-- One requested append: role, text, the clock reading (ms) the write
happens at, and its TTL value. -/
structure SaveReq where
  role : String
  text : String
  ts : Nat
  ttl : Nat
  deriving DecidableEq, Repr

/-- A sequence of `_save_message` calls for one conversation key. -/
def save_turns (table : List Item) (pk : String) : List SaveReq → List Item
  | [] => table
  | q :: rest => save_turns (save_message table pk q.role q.text q.ts q.ttl) pk rest

theorem save_message_append (table : List Item) (pk role text : String)
    (t ttl : Nat) (hfresh : ∀ j ∈ table, j.pk = pk → j.sk < t) :
    save_message table pk role text t ttl = table ++ [mkItem pk t role text ttl] := by
  unfold save_message putItem
  have hf : table.filter
      (fun j => !(j.pk == (mkItem pk t role text ttl).pk &&
        j.sk == (mkItem pk t role text ttl).sk)) = table := by
    apply List.filter_eq_self.mpr
    intro j hj
    simp only [mkItem, Bool.not_eq_true']
    by_cases hpk : j.pk = pk
    · have := hfresh j hj hpk
      simp [hpk, Nat.ne_of_lt this]
    · simp [hpk]
  rw [hf]

theorem save_turns_append (pk : String) (reqs : List SaveReq) :
    ∀ table : List Item,
    (∀ j ∈ table, j.pk = pk → ∀ q ∈ reqs, j.sk < q.ts) →
    List.Chain' (· < ·) (reqs.map SaveReq.ts) →
    save_turns table pk reqs
      = table ++ reqs.map (fun q => mkItem pk q.ts q.role q.text q.ttl) := by
  induction reqs with
  | nil => intro table _ _; simp [save_turns]
  | cons q rest ih =>
    intro table hfresh hchain
    have hq : ∀ j ∈ table, j.pk = pk → j.sk < q.ts := by
      intro j hj hpk; exact hfresh j hj hpk q (by simp)
    have hstep := save_message_append table pk q.role q.text q.ts q.ttl hq
    simp only [save_turns, hstep]
    have hlt : ∀ r ∈ rest, q.ts < r.ts := by
      intro r hr
      have hpair := (List.chain'_iff_pairwise.mp
        (by simpa using hchain))
      have := (List.pairwise_cons.mp hpair).1 r.ts (by
        exact List.mem_map_of_mem SaveReq.ts hr)
      exact this
    have hrest := ih (table ++ [mkItem pk q.ts q.role q.text q.ttl])
      (by
        intro j hj hpk r hr
        rcases List.mem_append.mp hj with hj0 | hj1
        · exact lt_trans (hfresh j hj0 hpk q (by simp)) (hlt r hr)
        · have : j = mkItem pk q.ts q.role q.text q.ttl := by simpa using hj1
          subst this
          exact hlt r hr)
      (by
        rcases List.chain'_cons'.mp (by simpa using hchain) with ⟨_, h2⟩
        exact h2)
    rw [hrest, List.append_assoc]
    rfl

theorem queryItems_of_append_fresh (t0 : List Item) (pk : String)
    (its : List Item) (hnone : ∀ j ∈ t0, j.pk ≠ pk)
    (hpk : ∀ i ∈ its, i.pk = pk)
    (hsorted : List.Pairwise (fun a b => a.sk < b.sk) its) :
    queryItems (t0 ++ its) pk = its := by
  unfold queryItems
  have hfilter : (t0 ++ its).filter (fun i => i.pk == pk) = its := by
    rw [List.filter_append]
    have h1 : t0.filter (fun i => i.pk == pk) = [] := by
      apply List.filter_eq_nil_iff.mpr
      intro j hj
      simpa using hnone j hj
    have h2 : its.filter (fun i => i.pk == pk) = its := by
      apply List.filter_eq_self.mpr
      intro i hi
      simpa using hpk i hi
    rw [h1, h2, List.nil_append]
  rw [hfilter]
  exact List.Sorted.insertionSort_eq
    (List.Pairwise.imp (fun h => Nat.le_of_lt h) hsorted)

/-- C2: for a conversation key with N turns appended at strictly
increasing clock readings (the key previously holding no items), any
paged read via `_load_all_history` returns exactly those turns,
oldest first, in the exact append order; and the query result is in
strictly increasing sort-key order. -/
theorem load_all_returns_append_order (t0 : List Item) (pk : String)
    (reqs : List SaveReq) (pages : List (List Item))
    (hnone : ∀ j ∈ t0, j.pk ≠ pk)
    (hchain : List.Chain' (· < ·) (reqs.map SaveReq.ts))
    (hjoin : pages.flatten = queryItems (save_turns t0 pk reqs) pk) :
    load_all_history_paged pages
        = reqs.map (fun q => Turn.mk q.role q.text)
    ∧ List.Pairwise (fun a b => a.sk < b.sk)
        (queryItems (save_turns t0 pk reqs) pk) := by
  have hfresh : ∀ j ∈ t0, j.pk = pk → ∀ q ∈ reqs, j.sk < q.ts := by
    intro j hj hpk; exact absurd hpk (hnone j hj)
  have hsave := save_turns_append pk reqs t0 hfresh hchain
  have hsorted : List.Pairwise (fun a b => a.sk < b.sk)
      (reqs.map (fun q => mkItem pk q.ts q.role q.text q.ttl)) := by
    have hp : List.Pairwise (· < ·) (reqs.map SaveReq.ts) :=
      List.chain'_iff_pairwise.mp hchain
    have := (List.pairwise_map.mp hp)
    exact List.pairwise_map.mpr (by
      exact this.imp (fun h => by simpa [mkItem] using h))
  have hquery : queryItems (save_turns t0 pk reqs) pk
      = reqs.map (fun q => mkItem pk q.ts q.role q.text q.ttl) := by
    rw [hsave]
    exact queryItems_of_append_fresh t0 pk _ hnone
      (by intro i hi; rcases List.mem_map.mp hi with ⟨q, _, rfl⟩; rfl)
      hsorted
  constructor
  · unfold load_all_history_paged
    rw [query_loop_eq_join, hjoin, hquery]
    simp [turnOfItem, mkItem]
  · rw [hquery]; exact hsorted

theorem load_all_returns_append_order_witness :
    (∀ j ∈ ([⟨"G9", 5, some "user", some "x", 1⟩] : List Item), j.pk ≠ "U1")
    ∧ List.Chain' (· < ·)
        (([⟨"user", "hi", 10, 7⟩, ⟨"assistant", "hello", 11, 7⟩,
           ⟨"user", "how are you", 12, 7⟩] : List SaveReq).map SaveReq.ts)
    ∧ load_all_history_paged
        [[⟨"U1", 10, some "user", some "hi", 7⟩],
         [⟨"U1", 11, some "assistant", some "hello", 7⟩,
          ⟨"U1", 12, some "user", some "how are you", 7⟩]]
      = [⟨"user", "hi"⟩, ⟨"assistant", "hello"⟩, ⟨"user", "how are you"⟩] := by
  refine ⟨by decide, by norm_num [List.chain'_cons], ?_⟩
  exact (load_all_returns_append_order
    [⟨"G9", 5, some "user", some "x", 1⟩] "U1"
    [⟨"user", "hi", 10, 7⟩, ⟨"assistant", "hello", 11, 7⟩,
     ⟨"user", "how are you", 12, 7⟩]
    [[⟨"U1", 10, some "user", some "hi", 7⟩],
     [⟨"U1", 11, some "assistant", some "hello", 7⟩,
      ⟨"U1", 12, some "user", some "how are you", 7⟩]]
    (by decide) (by norm_num [List.chain'_cons]) (by decide)).1

/-- Role coercion of `_to_anthropic_messages`:
`role = turn.get("role") or "user"`, then any value outside
user/assistant becomes "user". -/
def coerceRole (r : String) : String :=
  let r1 := if r = "" then "user" else r
  if r1 = "user" ∨ r1 = "assistant" then r1 else "user"

/-- The message a non-empty-text turn contributes. -/
def msgOfTurn (t : Turn) : Msg :=
  { role := coerceRole t.role, content := [{ type := "text", text := t.text }] }

/-- `_to_anthropic_messages` (lines 159-169): skip empty-text turns,
coerce roles, keep order. -/
def to_anthropic_messages : List Turn → List Msg
  | [] => []
  | t :: rest =>
    if t.text = "" then to_anthropic_messages rest
    else msgOfTurn t :: to_anthropic_messages rest

/-- The final message appended by the handler (line 50). -/
def userMsg (text : String) : Msg :=
  { role := "user", content := [{ type := "text", text := text }] }

/-- Handler lines 49-50: assemble history messages and append the new
user turn. -/
def build_messages (history : List Turn) (user_text : String) : List Msg :=
  to_anthropic_messages history ++ [userMsg user_text]

theorem to_anthropic_messages_eq (history : List Turn) :
    to_anthropic_messages history
      = (history.filter (fun t => !(t.text == ""))).map msgOfTurn := by
  induction history with
  | nil => rfl
  | cons t rest ih =>
    by_cases h : t.text = ""
    · simp [to_anthropic_messages, h, ih, List.filter_cons]
    · simp [to_anthropic_messages, h, ih, List.filter_cons]

theorem to_anthropic_messages_append (h1 h2 : List Turn) :
    to_anthropic_messages (h1 ++ h2)
      = to_anthropic_messages h1 ++ to_anthropic_messages h2 := by
  simp [to_anthropic_messages_eq, List.filter_append]

/-- C4: the assembled message list keeps the history in input order,
drops exactly the empty-text turns without disturbing the order of the
surrounding turns, and ends with exactly one final user message
carrying the new user text. -/
theorem build_messages_order_and_last (history : List Turn)
    (user_text : String) (huser : user_text ≠ "") :
    build_messages history user_text
        = (history.filter (fun t => !(t.text == ""))).map msgOfTurn
            ++ [userMsg user_text]
    ∧ (build_messages history user_text).getLast?
        = some (userMsg user_text)
    ∧ (userMsg user_text).role = "user"
    ∧ (userMsg user_text).content = [{ type := "text", text := user_text }] := by
  refine ⟨by rw [build_messages, to_anthropic_messages_eq], ?_, rfl, rfl⟩
  unfold build_messages
  rw [List.getLast?_append]
  rfl

theorem build_messages_order_and_last_witness :
    ("how are you" : String) ≠ ""
    ∧ build_messages
        [⟨"user", "hi"⟩, ⟨"system", ""⟩, ⟨"assistant", "hello"⟩]
        "how are you"
      = [⟨"user", [⟨"text", "hi"⟩]⟩, ⟨"assistant", [⟨"text", "hello"⟩]⟩,
         ⟨"user", [⟨"text", "how are you"⟩]⟩] := by
  constructor
  · decide
  · have h := (build_messages_order_and_last
      [⟨"user", "hi"⟩, ⟨"system", ""⟩, ⟨"assistant", "hello"⟩]
      "how are you" (by decide)).1
    rw [h]
    decide

theorem coerceRole_user_or_assistant (r : String) :
    coerceRole r = "user" ∨ coerceRole r = "assistant" := by
  unfold coerceRole
  by_cases h0 : r = ""
  · simp [h0]
  · simp only [h0, if_false]
    by_cases h1 : r = "user" ∨ r = "assistant"
    · simpa [h1] using h1
    · simp [h1]

theorem to_anthropic_messages_cons_ne (t : Turn) (rest : List Turn)
    (h : t.text ≠ "") :
    to_anthropic_messages (t :: rest)
      = msgOfTurn t :: to_anthropic_messages rest := by
  simp [to_anthropic_messages, h]

/-- C8: a stored turn whose role attribute is absent or holds any value
outside user/assistant is presented to the model context as role
"user": splitting the partition around such an item, the read/assembly
path emits for it exactly one message of role "user", in place. -/
theorem unrecognized_role_presented_as_user (pre post : List Item)
    (i : Item) (htext : i.text.getD "" ≠ "")
    (hrole : ∀ s, i.role = some s → ¬(s = "user" ∨ s = "assistant")) :
    to_anthropic_messages (load_all_history_unpaged (pre ++ i :: post))
      = to_anthropic_messages (load_all_history_unpaged pre)
          ++ Msg.mk "user" [⟨"text", i.text.getD ""⟩]
            :: to_anthropic_messages (load_all_history_unpaged post) := by
  unfold load_all_history_unpaged
  rw [List.map_append, List.map_cons, to_anthropic_messages_append,
    to_anthropic_messages_cons_ne (turnOfItem i) (post.map turnOfItem) htext]
  congr 2
  unfold msgOfTurn
  have hr : coerceRole (turnOfItem i).role = "user" := by
    unfold turnOfItem coerceRole
    cases hro : i.role with
    | none => simp
    | some s =>
      have hs := hrole s hro
      by_cases h0 : s = ""
      · simp [h0]
      · simp [h0, hs]
  rw [hr]
  rfl

theorem unrecognized_role_presented_as_user_witness :
    ((⟨"U1", 5, some "system", some "note", 3⟩ : Item).text.getD "" ≠ "")
    ∧ to_anthropic_messages (load_all_history_unpaged
        [⟨"U1", 4, some "user", some "hi", 3⟩,
         ⟨"U1", 5, some "system", some "note", 3⟩,
         ⟨"U1", 6, some "assistant", some "hello", 3⟩])
      = [⟨"user", [⟨"text", "hi"⟩]⟩, ⟨"user", [⟨"text", "note"⟩]⟩,
         ⟨"assistant", [⟨"text", "hello"⟩]⟩] := by
  constructor
  · decide
  · have h := unrecognized_role_presented_as_user
      [⟨"U1", 4, some "user", some "hi", 3⟩]
      [⟨"U1", 6, some "assistant", some "hello", 3⟩]
      ⟨"U1", 5, some "system", some "note", 3⟩
      (by decide) (by decide)
    exact h.trans (by decide)

/-- The full message list the handler passes to Bedrock: assembled from
the (unpaged-equivalent) query result of the key's partition, with the
new user turn appended (lines 46-50). -/
def assembled_messages (table : List Item) (pk user_text : String) :
    List Msg :=
  build_messages (load_all_history_unpaged (queryItems table pk)) user_text

/-- C10: every message handed to the model invocation has a role in
user/assistant and a single non-empty text content block, and the list
is non-empty, provided the new user text is non-empty (which the
handler's parse guard ensures). -/
theorem model_input_wellformed (table : List Item) (pk user_text : String)
    (huser : user_text ≠ "") :
    assembled_messages table pk user_text ≠ []
    ∧ ∀ m ∈ assembled_messages table pk user_text,
        (m.role = "user" ∨ m.role = "assistant")
        ∧ ∃ s, s ≠ "" ∧ m.content = [⟨"text", s⟩] := by
  constructor
  · simp [assembled_messages, build_messages]
  · intro m hm
    unfold assembled_messages build_messages at hm
    rcases List.mem_append.mp hm with hhist | hlast
    · rw [to_anthropic_messages_eq] at hhist
      rcases List.mem_map.mp hhist with ⟨t, htmem, rfl⟩
      have htne : t.text ≠ "" := by
        have := List.of_mem_filter htmem
        simpa using this
      exact ⟨coerceRole_user_or_assistant t.role, t.text, htne, rfl⟩
    · have : m = userMsg user_text := by simpa using hlast
      subst this
      exact ⟨Or.inl rfl, user_text, huser, rfl⟩

theorem model_input_wellformed_witness :
    ("ping" : String) ≠ ""
    ∧ assembled_messages [⟨"U1", 1, some "user", some "hi", 2⟩] "U1" "ping" ≠ []
    ∧ ∀ m ∈ assembled_messages [⟨"U1", 1, some "user", some "hi", 2⟩] "U1" "ping",
        (m.role = "user" ∨ m.role = "assistant")
        ∧ ∃ s, s ≠ "" ∧ m.content = [⟨"text", s⟩] := by
  have h := model_input_wellformed
    [⟨"U1", 1, some "user", some "hi", 2⟩] "U1" "ping" (by decide)
  exact ⟨by decide, h.1, h.2⟩

/-- Python `a or b` on optional strings: `a` unless it is None or the
empty string, else `b`. -/
def pyOr (a b : Option String) : Option String :=
  match a with
  | none => b
  | some s => if s = "" then b else some s

/-- Python truthiness of an optional string. -/
def truthyOptStr : Option String → Bool
  | none => false
  | some s => !(s == "")

/-- Handler line 42: `conv_pk = user_id or group_id or room_id or
reply_token`. -/
def resolve_conv_pk (user_id group_id room_id reply_token : Option String) :
    Option String :=
  pyOr (pyOr (pyOr user_id group_id) room_id) reply_token

/-- Modelled from the spec: "Returns the first non-empty candidate"
among the precedence list user, group, room, fallback token. -/
def firstNonEmpty : List (Option String) → Option String
  | [] => none
  | none :: rest => firstNonEmpty rest
  | some s :: rest => if s = "" then firstNonEmpty rest else some s

theorem pyOr_if (a b : Option String) :
    pyOr a b = if truthyOptStr a = true then a else b := by
  cases a with
  | none => rfl
  | some s => by_cases hs : s = "" <;> simp [pyOr, truthyOptStr, hs]

theorem firstNonEmpty_cons (a : Option String) (l : List (Option String)) :
    firstNonEmpty (a :: l)
      = if truthyOptStr a = true then a else firstNonEmpty l := by
  cases a with
  | none => simp [firstNonEmpty, truthyOptStr]
  | some s => by_cases hs : s = "" <;> simp [firstNonEmpty, truthyOptStr, hs]

/-- C6: the resolved conversation key is the first non-empty candidate
among user id, group id, room id, reply token; in particular with both
userId "U1" and groupId "G1" the key is "U1", with only groupId "G1" it
is "G1", and with none of the three it equals the reply token. -/
theorem conv_pk_first_nonempty :
    (∀ u g r t s, firstNonEmpty [u, g, r, t] = some s →
        resolve_conv_pk u g r t = some s)
    ∧ (∀ r t, resolve_conv_pk (some "U1") (some "G1") r t = some "U1")
    ∧ (∀ t, resolve_conv_pk none (some "G1") none t = some "G1")
    ∧ (∀ t, resolve_conv_pk none none none t = t) := by
  refine ⟨?_, ?_, ?_, ?_⟩
  · intro u g r t s h
    rw [firstNonEmpty_cons, firstNonEmpty_cons, firstNonEmpty_cons,
      firstNonEmpty_cons] at h
    unfold resolve_conv_pk
    rw [pyOr_if, pyOr_if, pyOr_if]
    cases hu : truthyOptStr u with
    | true => simp only [hu, if_true] at h ⊢; exact h
    | false =>
      simp only [hu, Bool.false_eq_true, if_false] at h ⊢
      cases hg : truthyOptStr g with
      | true => simp only [hg, if_true] at h ⊢; exact h
      | false =>
        simp only [hg, Bool.false_eq_true, if_false] at h ⊢
        cases hr : truthyOptStr r with
        | true => simp only [hr, if_true] at h ⊢; exact h
        | false =>
          simp only [hr, Bool.false_eq_true, if_false] at h ⊢
          cases ht : truthyOptStr t with
          | true => simp only [ht, if_true] at h; exact h
          | false =>
            simp only [ht, Bool.false_eq_true, if_false, firstNonEmpty] at h
            exact absurd h (by simp)
  · intro r t; rfl
  · intro t; rfl
  · intro t; rfl

theorem conv_pk_first_nonempty_witness :
    firstNonEmpty [some "", none, some "R1", some "tok"] = some "R1"
    ∧ resolve_conv_pk (some "") none (some "R1") (some "tok") = some "R1" :=
  ⟨by decide, conv_pk_first_nonempty.1 (some "") none (some "R1")
    (some "tok") "R1" (by decide)⟩

/-- One element of the "content" array of a Bedrock/Anthropic response
body, as JSON: either an object (with an optional "text" member) or a
non-object value. -/
inductive ContentElem where
  | obj (text : Option String)
  | nonobj
  deriving DecidableEq, Repr

/-- The fixed placeholder used when a response is empty or malformed. -/
def placeholderText : String := "（応答なし）"

/-- Response-content extraction of `_ask_bedrock` in
`lambda_function_dynamo.py` (lines 84-88): with
`content = data.get("content") or []`, return
`content[0].get("text") or placeholder` when the first element is a
dict, else the placeholder. -/
def ask_bedrock_extract (content : Option (List ContentElem)) : String :=
  match content.getD [] with
  | [] => placeholderText
  | ContentElem.nonobj :: _ => placeholderText
  | ContentElem.obj t :: _ =>
    match t with
    | none => placeholderText
    | some s => if s = "" then placeholderText else s

/-- Response-content extraction of `_ask_bedrock` in
`lambda_function.py` (lines 57-59): returns `content[0].get("text")`
unguarded when the first element is a dict (so possibly the absent
value), else the placeholder. -/
def ask_bedrock_extract_plain (content : Option (List ContentElem)) :
    Option String :=
  match content.getD [] with
  | [] => some placeholderText
  | ContentElem.nonobj :: _ => some placeholderText
  | ContentElem.obj t :: _ => t

/-- C9 counterexample: when the first content element is an object
lacking "text", the plain variant returns the absent value (Python
None), not the fixed placeholder, while the dynamo variant does return
the placeholder. -/
theorem plain_variant_missing_text_not_placeholder :
    ask_bedrock_extract_plain (some [ContentElem.obj none])
        ≠ some placeholderText
    ∧ ask_bedrock_extract_plain (some [ContentElem.obj none]) = none
    ∧ ask_bedrock_extract (some [ContentElem.obj none]) = placeholderText := by
  refine ⟨?_, rfl, rfl⟩
  intro h
  exact Option.noConfusion h

/-- C9 amended: on an empty content list or a non-object first element,
both variants return the fixed placeholder; on an object first element
lacking "text", the dynamo variant returns the placeholder while the
plain variant returns the absent value. -/
theorem ask_bedrock_placeholder_cases (content : Option (List ContentElem)) :
    (content.getD [] = [] →
      ask_bedrock_extract content = placeholderText
      ∧ ask_bedrock_extract_plain content = some placeholderText)
    ∧ (∀ rest, content.getD [] = ContentElem.nonobj :: rest →
      ask_bedrock_extract content = placeholderText
      ∧ ask_bedrock_extract_plain content = some placeholderText)
    ∧ (∀ rest, content.getD [] = ContentElem.obj none :: rest →
      ask_bedrock_extract content = placeholderText
      ∧ ask_bedrock_extract_plain content = none) := by
  refine ⟨?_, ?_, ?_⟩
  · intro h
    unfold ask_bedrock_extract ask_bedrock_extract_plain
    rw [h]
    exact ⟨rfl, rfl⟩
  · intro rest h
    unfold ask_bedrock_extract ask_bedrock_extract_plain
    rw [h]
    exact ⟨rfl, rfl⟩
  · intro rest h
    unfold ask_bedrock_extract ask_bedrock_extract_plain
    rw [h]
    exact ⟨rfl, rfl⟩

theorem ask_bedrock_placeholder_cases_witness :
    ask_bedrock_extract (some [ContentElem.nonobj]) = placeholderText
    ∧ ask_bedrock_extract_plain (some [ContentElem.nonobj])
        = some placeholderText :=
  (ask_bedrock_placeholder_cases (some [ContentElem.nonobj])).2.1 [] rfl

/-- The "source" member of an inbound LINE event. -/
structure LineSource where
  userId : Option String
  groupId : Option String
  roomId : Option String
  deriving DecidableEq, Repr

/-- The "message" member of an inbound LINE event. -/
structure LineMessage where
  text : Option String
  deriving DecidableEq, Repr

/-- One inbound LINE event, every member optional as in the JSON. -/
structure LineEvent where
  replyToken : Option String
  message : Option LineMessage
  source : Option LineSource
  deriving DecidableEq, Repr

/-- The parsed webhook body: an optional "events" array whose entries
may be null. -/
structure WebhookBody where
  events : Option (List (Option LineEvent))
  deriving DecidableEq, Repr

def emptyEvent : LineEvent :=
  { replyToken := none, message := none, source := none }

/-- Handler line 33: `ev = (body.get("events") or [None])[0] or ...`,
the empty dict when the array is absent, empty, or starts with null. -/
def firstEvent : Option (List (Option LineEvent)) → LineEvent
  | none => emptyEvent
  | some [] => emptyEvent
  | some (none :: _) => emptyEvent
  | some (some e :: _) => e

/-- Handler line 35: the event's reply token. -/
def event_reply_token (req : WebhookBody) : Option String :=
  (firstEvent req.events).replyToken

/-- Python `str.strip()`: drop whitespace from both ends. -/
def pyStrip (s : String) : String :=
  String.mk
    (((s.data.dropWhile Char.isWhitespace).reverse.dropWhile
      Char.isWhitespace).reverse)

/-- Handler line 36: message text, absent pieces defaulting to the
empty string, then stripped. -/
def event_user_text (req : WebhookBody) : String :=
  pyStrip ((((firstEvent req.events).message.getD { text := none }).text).getD "")

/-- Handler lines 38-42: conversation key from the source identities
with the reply token as fallback. -/
def event_conv_pk (req : WebhookBody) : Option String :=
  let src := (firstEvent req.events).source.getD
    { userId := none, groupId := none, roomId := none }
  resolve_conv_pk src.userId src.groupId src.roomId
    (firstEvent req.events).replyToken

/-- The JSON body of the handler's response: either a "message" object
or an "error" object. -/
inductive RespBody where
  | msg (s : String)
  | err (s : String)
  deriving DecidableEq, Repr

/-- Observable outcome of one handler invocation: the HTTP response,
the resulting table state, and how many Bedrock calls, reply calls and
store writes were performed. -/
structure HandlerOutput where
  statusCode : Nat
  body : RespBody
  table : List Item
  bedrockCalls : Nat
  replyCalls : Nat
  putCalls : Nat
  deriving DecidableEq, Repr

/-- `lambda_handler` of `lambda_function_dynamo.py` (lines 30-69).
External collaborators enter as parameters: `bedrock` is the model
invocation (`_ask_bedrock` plus transport), `reply` the LINE reply
call; both may raise, modelled as `Except`. `t1`, `t2` are the
`_now_ms()` readings of the two `_save_message` calls and `ttl1`,
`ttl2` their TTL values. The top-level `except` turns any raise into a
500 response with the error message. -/
def lambda_handler_dynamo
    (bedrock : List Msg → Except String String)
    (reply : String → String → Except String Unit)
    (t1 t2 ttl1 ttl2 : Nat)
    (req : WebhookBody) (table : List Item) : HandlerOutput :=
  let reply_token := event_reply_token req
  let user_text := event_user_text req
  let conv_pk := event_conv_pk req
  if !truthyOptStr reply_token || user_text == "" then
    { statusCode := 200, body := RespBody.msg "no text", table := table,
      bedrockCalls := 0, replyCalls := 0, putCalls := 0 }
  else
    let pk := conv_pk.getD ""
    match bedrock (assembled_messages table pk user_text) with
    | Except.error e =>
      { statusCode := 500, body := RespBody.err e, table := table,
        bedrockCalls := 1, replyCalls := 0, putCalls := 0 }
    | Except.ok ai_text =>
      match reply (reply_token.getD "") ai_text with
      | Except.error e =>
        { statusCode := 500, body := RespBody.err e, table := table,
          bedrockCalls := 1, replyCalls := 1, putCalls := 0 }
      | Except.ok _ =>
        let table1 := save_message table pk "user" user_text t1 ttl1
        let table2 := save_message table1 pk "assistant" ai_text t2 ttl2
        { statusCode := 200, body := RespBody.msg "ok", table := table2,
          bedrockCalls := 1, replyCalls := 1, putCalls := 2 }

/-- C7: when the reply token is absent (or empty) or the message text
is absent or empty, the handler answers 200 with message "no text" and
performs zero store writes, zero model calls and zero reply calls, the
table untouched. -/
theorem skip_path_no_effects
    (bedrock : List Msg → Except String String)
    (reply : String → String → Except String Unit)
    (t1 t2 ttl1 ttl2 : Nat) (req : WebhookBody) (table : List Item)
    (h : truthyOptStr (event_reply_token req) = false
        ∨ event_user_text req = "") :
    lambda_handler_dynamo bedrock reply t1 t2 ttl1 ttl2 req table
      = { statusCode := 200, body := RespBody.msg "no text", table := table,
          bedrockCalls := 0, replyCalls := 0, putCalls := 0 } := by
  unfold lambda_handler_dynamo
  rcases h with h | h
  · simp [h]
  · simp [h]

theorem skip_path_no_effects_witness :
    lambda_handler_dynamo (fun _ => Except.ok "hi")
      (fun _ _ => Except.ok ()) 1 2 3 4
      ⟨some [some ⟨some "tok", some ⟨some ""⟩, none⟩]⟩
      [⟨"U1", 1, some "user", some "x", 9⟩]
      = { statusCode := 200, body := RespBody.msg "no text",
          table := [⟨"U1", 1, some "user", some "x", 9⟩],
          bedrockCalls := 0, replyCalls := 0, putCalls := 0 } :=
  skip_path_no_effects _ _ 1 2 3 4 _ _ (Or.inr rfl)

/-- C5: if the model invocation fails, or it succeeds and the reply
delivery fails, the handler returns 500 with the error message in the
body, and the store is unchanged with zero writes: persistence is
ordered strictly after a successful reply. -/
theorem failure_leaves_store_unchanged
    (bedrock : List Msg → Except String String)
    (reply : String → String → Except String Unit)
    (t1 t2 ttl1 ttl2 : Nat) (req : WebhookBody) (table : List Item)
    (e : String)
    (htok : truthyOptStr (event_reply_token req) = true)
    (htext : event_user_text req ≠ "")
    (hfail : bedrock (assembled_messages table
          ((event_conv_pk req).getD "") (event_user_text req))
        = Except.error e
      ∨ ∃ a, bedrock (assembled_messages table
            ((event_conv_pk req).getD "") (event_user_text req))
          = Except.ok a
        ∧ reply ((event_reply_token req).getD "") a = Except.error e) :
    (lambda_handler_dynamo bedrock reply t1 t2 ttl1 ttl2 req table).statusCode
        = 500
    ∧ (lambda_handler_dynamo bedrock reply t1 t2 ttl1 ttl2 req table).body
        = RespBody.err e
    ∧ (lambda_handler_dynamo bedrock reply t1 t2 ttl1 ttl2 req table).table
        = table
    ∧ (lambda_handler_dynamo bedrock reply t1 t2 ttl1 ttl2 req table).putCalls
        = 0 := by
  unfold lambda_handler_dynamo
  rcases hfail with hb | ⟨a, hb, hr⟩
  · simp [htok, htext, hb]
  · simp [htok, htext, hb, hr]

theorem failure_leaves_store_unchanged_witness :
    (lambda_handler_dynamo (fun _ => Except.error "model down")
      (fun _ _ => Except.ok ()) 1 2 3 4
      ⟨some [some ⟨some "tok", some ⟨some "hello"⟩, none⟩]⟩
      [⟨"tok", 1, some "user", some "x", 9⟩]).statusCode = 500
    ∧ (lambda_handler_dynamo (fun _ => Except.error "model down")
      (fun _ _ => Except.ok ()) 1 2 3 4
      ⟨some [some ⟨some "tok", some ⟨some "hello"⟩, none⟩]⟩
      [⟨"tok", 1, some "user", some "x", 9⟩]).table
        = [⟨"tok", 1, some "user", some "x", 9⟩] := by
  have h := failure_leaves_store_unchanged
    (fun _ => Except.error "model down") (fun _ _ => Except.ok ()) 1 2 3 4
    ⟨some [some ⟨some "tok", some ⟨some "hello"⟩, none⟩]⟩
    [⟨"tok", 1, some "user", some "x", 9⟩] "model down"
    (by decide) (by decide) (Or.inl rfl)
  exact ⟨h.1, h.2.2.1⟩

/-- C3: on a successful pipeline completion under normal operation (the
second clock reading after the first, both past every stored sort key
of the conversation), the handler appends exactly two new distinct
items, the user turn then the assistant turn, overwriting nothing, with
strictly increasing sort keys strictly above every previously stored
sort key for that conversation key. -/
theorem success_appends_two_fresh_turns
    (bedrock : List Msg → Except String String)
    (reply : String → String → Except String Unit)
    (t1 t2 ttl1 ttl2 : Nat) (req : WebhookBody) (table : List Item)
    (ai : String)
    (htok : truthyOptStr (event_reply_token req) = true)
    (htext : event_user_text req ≠ "")
    (hbed : bedrock (assembled_messages table
          ((event_conv_pk req).getD "") (event_user_text req))
        = Except.ok ai)
    (hrep : reply ((event_reply_token req).getD "") ai = Except.ok ())
    (ht12 : t1 < t2)
    (hfresh : ∀ j ∈ table,
        j.pk = (event_conv_pk req).getD "" → j.sk < t1) :
    (lambda_handler_dynamo bedrock reply t1 t2 ttl1 ttl2 req table).table
        = table
          ++ [mkItem ((event_conv_pk req).getD "") t1 "user"
                (event_user_text req) ttl1,
              mkItem ((event_conv_pk req).getD "") t2 "assistant" ai ttl2]
    ∧ (lambda_handler_dynamo bedrock reply t1 t2 ttl1 ttl2 req table).statusCode
        = 200
    ∧ mkItem ((event_conv_pk req).getD "") t1 "user"
          (event_user_text req) ttl1
        ≠ mkItem ((event_conv_pk req).getD "") t2 "assistant" ai ttl2
    ∧ (mkItem ((event_conv_pk req).getD "") t1 "user"
          (event_user_text req) ttl1).sk
        < (mkItem ((event_conv_pk req).getD "") t2 "assistant" ai ttl2).sk
    ∧ ∀ j ∈ table, j.pk = (event_conv_pk req).getD "" →
        j.sk < (mkItem ((event_conv_pk req).getD "") t1 "user"
          (event_user_text req) ttl1).sk := by
  have hstep1 := save_message_append table ((event_conv_pk req).getD "")
    "user" (event_user_text req) t1 ttl1 hfresh
  have hfresh2 : ∀ j ∈ table
      ++ [mkItem ((event_conv_pk req).getD "") t1 "user"
            (event_user_text req) ttl1],
      j.pk = (event_conv_pk req).getD "" → j.sk < t2 := by
    intro j hj hpk
    rcases List.mem_append.mp hj with hj0 | hj1
    · exact lt_trans (hfresh j hj0 hpk) ht12
    · have : j = mkItem ((event_conv_pk req).getD "") t1 "user"
          (event_user_text req) ttl1 := by simpa using hj1
      subst this
      exact ht12
  have hstep2 := save_message_append
    (table ++ [mkItem ((event_conv_pk req).getD "") t1 "user"
        (event_user_text req) ttl1])
    ((event_conv_pk req).getD "") "assistant" ai t2 ttl2 hfresh2
  refine ⟨?_, ?_, ?_, ht12, hfresh⟩
  · unfold lambda_handler_dynamo
    simp only [htok, Bool.not_true, Bool.false_or, beq_iff_eq, htext,
      if_false, hbed, hrep]
    rw [hstep1, hstep2, List.append_assoc]
    rfl
  · unfold lambda_handler_dynamo
    simp [htok, htext, hbed, hrep]
  · intro hcontra
    have : t1 = t2 := congrArg Item.sk hcontra
    exact Nat.ne_of_lt ht12 this

theorem success_appends_two_fresh_turns_witness :
    (lambda_handler_dynamo (fun _ => Except.ok "I'm good")
      (fun _ _ => Except.ok ()) 10 11 70 71
      ⟨some [some ⟨some "tok", some ⟨some "how are you"⟩,
        some ⟨some "U1", none, none⟩⟩]⟩
      [⟨"U1", 1, some "user", some "hi", 9⟩,
       ⟨"U1", 2, some "assistant", some "hello", 9⟩]).table
      = [⟨"U1", 1, some "user", some "hi", 9⟩,
         ⟨"U1", 2, some "assistant", some "hello", 9⟩,
         ⟨"U1", 10, some "user", some "how are you", 70⟩,
         ⟨"U1", 11, some "assistant", some "I'm good", 71⟩] := by
  have h := success_appends_two_fresh_turns
    (fun _ => Except.ok "I'm good") (fun _ _ => Except.ok ()) 10 11 70 71
    ⟨some [some ⟨some "tok", some ⟨some "how are you"⟩,
      some ⟨some "U1", none, none⟩⟩]⟩
    [⟨"U1", 1, some "user", some "hi", 9⟩,
     ⟨"U1", 2, some "assistant", some "hello", 9⟩]
    "I'm good" (by decide) (by decide) rfl rfl (by decide) (by decide)
  exact h.1.trans (by decide)

end LambdaLine
